import Mathlib

/-!
Verification development for the AirSim-derived core of the droneclash
repository: the vector/quaternion math kernel (VectorMath.hpp), the
environment model (Environment.hpp) and the RosFlight drone controller
(RosFlightDroneController.hpp), shallowly embedded over the reals.
-/

namespace AirLib

open Real

noncomputable section

/-- 3-vector over the reals, modelling `Vector3T` (Eigen `Vector3`). -/
@[ext]
structure Vector3 where
  x : ℝ
  y : ℝ
  z : ℝ

instance : Add Vector3 := ⟨fun a b => ⟨a.x + b.x, a.y + b.y, a.z + b.z⟩⟩

theorem Vector3.add_def (a b : Vector3) :
    a + b = ⟨a.x + b.x, a.y + b.y, a.z + b.z⟩ := rfl

/-- Quaternion with scalar part `w` and vector part `(x, y, z)`,
modelling Eigen `Quaternion` as used by `VectorMathT`. -/
@[ext]
structure Quaternion where
  w : ℝ
  x : ℝ
  y : ℝ
  z : ℝ

/-- The vector part of a quaternion (Eigen `q.vec()`). -/
def Quaternion.vec (q : Quaternion) : Vector3 := ⟨q.x, q.y, q.z⟩

/-- Eigen `q.conjugate()`. -/
def Quaternion.conjugate (q : Quaternion) : Quaternion := ⟨q.w, -q.x, -q.y, -q.z⟩

/-- Eigen `q.squaredNorm()` (sum of squares of the four coefficients). -/
def Quaternion.squaredNorm (q : Quaternion) : ℝ :=
  q.w * q.w + q.x * q.x + q.y * q.y + q.z * q.z

/-- Eigen `q.inverse()`: conjugate divided by the squared norm. -/
def Quaternion.inverse (q : Quaternion) : Quaternion :=
  ⟨q.w / q.squaredNorm, -q.x / q.squaredNorm, -q.y / q.squaredNorm, -q.z / q.squaredNorm⟩

/-- Cross product of 3-vectors (Eigen `a.cross(b)`). -/
def cross (a b : Vector3) : Vector3 :=
  ⟨a.y * b.z - a.z * b.y, a.z * b.x - a.x * b.z, a.x * b.y - a.y * b.x⟩

/-- Scalar multiple of a 3-vector. -/
def smul (r : ℝ) (v : Vector3) : Vector3 := ⟨r * v.x, r * v.y, r * v.z⟩

/-- Eigen `q._transformVector(v)`:
`uv = q.vec().cross(v); uv += uv; return v + q.w()*uv + q.vec().cross(uv)`.
(Correct as a rotation only for unit `q`, exactly as in Eigen.) -/
def Quaternion.transformVector (q : Quaternion) (v : Vector3) : Vector3 :=
  let uv := cross q.vec v
  let uv2 := uv + uv
  v + smul q.w uv2 + cross q.vec uv2

/-- `Pose`: position plus orientation (VectorMath.hpp `struct Pose`). -/
structure Pose where
  position : Vector3
  orientation : Quaternion

/-- `VectorMathT::rotateVector`; the `assume_unit_quat` flag is accepted and
ignored, exactly as in the source (`q._transformVector(v)` either way). -/
def rotateVector (v : Vector3) (q : Quaternion) (assume_unit_quat : Bool) : Vector3 :=
  let _ := assume_unit_quat
  q.transformVector v

/-- `VectorMathT::rotateVectorReverse`: inverse rotation via `q.inverse()`
when the flag is false, via `q.conjugate()` when it is true. -/
def rotateVectorReverse (v : Vector3) (q : Quaternion) (assume_unit_quat : Bool) : Vector3 :=
  if !assume_unit_quat then q.inverse.transformVector v
  else q.conjugate.transformVector v

/-- `VectorMathT::transformToBodyFrame`. -/
def transformToBodyFrame (v_world : Vector3) (q : Quaternion) (assume_unit_quat : Bool) : Vector3 :=
  rotateVectorReverse v_world q assume_unit_quat

/-- `VectorMathT::transformToWorldFrame` (quaternion overload). -/
def transformToWorldFrame (v_body : Vector3) (q : Quaternion) (assume_unit_quat : Bool) : Vector3 :=
  rotateVector v_body q assume_unit_quat

/-- `VectorMathT::transformToWorldFrame` (pose overload): translate by
`pose.position` first, then rotate by `pose.orientation`. -/
def transformToWorldFramePose (v_body : Vector3) (pose : Pose) (assume_unit_quat : Bool) :
    Vector3 :=
  let translated := v_body + pose.position
  transformToWorldFrame translated pose.orientation assume_unit_quat

/-- `std::atan2(y, x)` modelled as the principal argument of the complex
number `x + i y`, with range `(-π, π]` and `atan2 0 0 = 0`, matching the C
library specification on the reals (no signed zero). -/
def atan2 (y x : ℝ) : ℝ := Complex.arg ⟨x, y⟩

/-- Result triple of `VectorMathT::toEulerianAngle` (its three out-parameters). -/
@[ext]
structure EulerAngles where
  pitch : ℝ
  roll : ℝ
  yaw : ℝ

/-- `VectorMathT::toEulerianAngle`, including the clamp of the `asin`
argument `t2` to `[-1, 1]` done by the two conditionals in the source. -/
def toEulerianAngle (q : Quaternion) : EulerAngles :=
  let ysqr := q.y * q.y
  let t0 := -2 * (ysqr + q.z * q.z) + 1
  let t1 := 2 * (q.x * q.y + q.w * q.z)
  let t2 := -2 * (q.x * q.z - q.w * q.y)
  let t3 := 2 * (q.y * q.z + q.w * q.x)
  let t4 := -2 * (q.x * q.x + ysqr) + 1
  let t2a := if t2 > 1 then 1 else t2
  let t2b := if t2a < -1 then -1 else t2a
  { pitch := Real.arcsin t2b, roll := atan2 t3 t4, yaw := atan2 t1 t0 }

/-- `VectorMathT::toQuaternion(pitch, roll, yaw)`. -/
def toQuaternion (pitch roll yaw : ℝ) : Quaternion :=
  let t0 := Real.cos (yaw * 0.5)
  let t1 := Real.sin (yaw * 0.5)
  let t2 := Real.cos (roll * 0.5)
  let t3 := Real.sin (roll * 0.5)
  let t4 := Real.cos (pitch * 0.5)
  let t5 := Real.sin (pitch * 0.5)
  { w := t0 * t2 * t4 + t1 * t3 * t5
    x := t0 * t3 * t4 - t1 * t2 * t5
    y := t0 * t2 * t5 + t1 * t3 * t4
    z := t1 * t2 * t4 - t0 * t3 * t5 }

/-- `VectorMathT::getYaw`. -/
def getYaw (q : Quaternion) : ℝ :=
  atan2 (2 * (q.z * q.w + q.x * q.y)) (-1 + 2 * (q.w * q.w + q.x * q.x))

/-- `VectorMathT::getPitch`. -/
def getPitch (q : Quaternion) : ℝ :=
  Real.arcsin (2 * (q.y * q.w - q.z * q.x))

/-- `VectorMathT::getRoll`. -/
def getRoll (q : Quaternion) : ℝ :=
  atan2 (2 * (q.z * q.y + q.w * q.x)) (1 - 2 * (q.x * q.x + q.y * q.y))

/-- Truncation toward zero of a real, as `ℤ`: models the value computed by
C `std::fmod`'s implied division step. -/
def rtrunc (r : ℝ) : ℤ := if 0 ≤ r then ⌊r⌋ else ⌈r⌉

/-- C `std::fmod(x, y)`: `x - y * trunc(x / y)`, result has the sign of `x`
and magnitude less than `|y|` (for finite arguments). -/
def fmod (x y : ℝ) : ℝ := x - y * rtrunc (x / y)

/-- `VectorMathT::normalizeAngleDegrees`. -/
def normalizeAngleDegrees (angle : ℝ) : ℝ :=
  let a := fmod angle 360
  if a > 180 then a - 360
  else if a < -180 then a + 360
  else a

/-! ### RosFlight drone controller (RosFlightDroneController.hpp) -/

/-- `RCData`: normalized remote-control input consumed by `setRCData`. -/
structure RCData where
  roll : ℝ
  pitch : ℝ
  yaw : ℝ
  throttle : ℝ
  switch1 : ℕ
  switch2 : ℕ
  switch3 : ℕ
  switch4 : ℕ
  switch5 : ℕ
  switch6 : ℕ
  switch7 : ℕ
  switch8 : ℕ
  is_connected : Bool

/-- `static_cast<uint16_t>` applied to a float value: truncation toward
zero; the conversion is defined only for values in `[0, 65536)`, which is
where every call below lands for normalized inputs (for nonnegative
arguments truncation toward zero is the floor). -/
def u16OfFloat (x : ℝ) : ℕ := Int.toNat ⌊x⌋

/-- `RosFlightDroneController::angleToPwm`: `uint16_t(angle * 500 + 1500)`. -/
def angleToPwm (angle : ℝ) : ℕ := u16OfFloat (angle * 500 + 1500)

/-- `RosFlightDroneController::thrustToPwm`:
`uint16_t((thrust < 0 ? 0 : thrust) * 1000 + 1000)`. -/
def thrustToPwm (thrust : ℝ) : ℕ :=
  u16OfFloat ((if thrust < 0 then 0 else thrust) * 1000 + 1000)

/-- `RosFlightDroneController::switchToPwm`:
`uint16_t(1000.0f * switchVal / maxSwitchVal + 1000.0f)`. -/
def switchToPwm (switchVal : ℕ) (maxSwitchVal : ℕ) : ℕ :=
  u16OfFloat (1000 * (switchVal : ℝ) / (maxSwitchVal : ℝ) + 1000)

/-- The firmware board's input channels (`board_->setInputChannel`), as a
map from channel index to the last value written. -/
def setInputChannel (index : ℕ) (value : ℕ) (channels : ℕ → ℕ) : ℕ → ℕ :=
  fun i => if i = index then value else channels i

/-- `RosFlightDroneController::setRCData`, acting on the board's input
channel state: twelve writes when `rcData.is_connected`, none otherwise.
The writes are composed in program order (channel 0 first, channel 11
last). -/
def setRCData (rcData : RCData) (channels : ℕ → ℕ) : ℕ → ℕ :=
  if rcData.is_connected then
    setInputChannel 11 (switchToPwm rcData.switch8 1)
      (setInputChannel 10 (switchToPwm rcData.switch7 1)
        (setInputChannel 9 (switchToPwm rcData.switch6 1)
          (setInputChannel 8 (switchToPwm rcData.switch5 1)
            (setInputChannel 7 (switchToPwm rcData.switch4 1)
              (setInputChannel 6 (switchToPwm rcData.switch3 1)
                (setInputChannel 5 (switchToPwm rcData.switch2 1)
                  (setInputChannel 4 (switchToPwm rcData.switch1 1)
                    (setInputChannel 3 (angleToPwm (-rcData.pitch))
                      (setInputChannel 2 (thrustToPwm rcData.throttle)
                        (setInputChannel 1 (angleToPwm rcData.yaw)
                          (setInputChannel 0 (angleToPwm rcData.roll) channels)))))))))))
  else channels

/-- `RosFlightDroneController::getVertexControlSignal`: remap the
counter-clockwise rotor index to the ArduCopter QuadX index and read the
board's motor control signal there; indices beyond 3 throw. `board` is the
board's motor-control-signal state (`board_->getMotorControlSignal`). -/
def getVertexControlSignal (board : ℕ → ℝ) (rotor_index : ℕ) : Except String ℝ :=
  match rotor_index with
  | 0 => Except.ok (board 1)
  | 1 => Except.ok (board 2)
  | 2 => Except.ok (board 3)
  | 3 => Except.ok (board 0)
  | _ => Except.error "Rotor index beyond 3 is not supported yet in ROSFlight firmware"

/-! ### Environment model (Environment.hpp) -/

/-- `GeoPoint`: geodetic coordinate. -/
structure GeoPoint where
  latitude : ℝ
  longitude : ℝ
  altitude : ℝ

/-- Modelled from the spec: `EarthUtils::HomeGeoPoint` (EarthUtils.hpp is
not among the shown sources) captures the fixed home reference geo-point
at initialization; its cached derived quantities are pure functions of
that geo-point and play no separate role here. -/
structure HomeGeoPoint where
  home_geo_point : GeoPoint

/-- Modelled from the spec: the external geodetic/atmosphere utilities of
`EarthUtils` (`nedToGeodetic`, `getGeopotential`, `getStandardTemperature`,
`getStandardPressure`, `getAirDensity`, `getGravity`), which the spec
documents as pure functions; they are abstracted as an arbitrary bundle of
pure functions, so every theorem below holds for any such bundle. -/
structure EarthModel where
  nedToGeodetic : Vector3 → HomeGeoPoint → GeoPoint
  getGeopotential : ℝ → ℝ
  getStandardTemperature : ℝ → ℝ
  getStandardPressure : ℝ → ℝ → ℝ
  getAirDensity : ℝ → ℝ → ℝ
  getGravity : ℝ → ℝ

/-- `Environment::State`. -/
structure EnvState where
  geo_point : GeoPoint
  min_z_over_ground : ℝ
  position : Vector3
  gravity : Vector3
  air_pressure : ℝ
  temperature : ℝ
  air_density : ℝ

/-- `Environment::updateState(state, home_geo_point)`: recompute the
derived fields of `state` from its position and the home reference, in
source order. -/
def updateState (em : EarthModel) (state : EnvState) (home_geo_point : HomeGeoPoint) :
    EnvState :=
  let geo_point := em.nedToGeodetic state.position home_geo_point
  let geo_pot := em.getGeopotential (geo_point.altitude / 1000)
  let temperature := em.getStandardTemperature geo_pot
  let air_pressure := em.getStandardPressure geo_pot temperature
  let air_density := em.getAirDensity air_pressure temperature
  { state with
    geo_point := geo_point
    temperature := temperature
    air_pressure := air_pressure
    air_density := air_density
    gravity := ⟨0, 0, em.getGravity geo_point.altitude⟩ }

/-- The `Environment` object's fields. -/
structure Environment where
  initial : EnvState
  current : EnvState
  home_geo_point : HomeGeoPoint

/-- `Environment::initialize(initial)`: fix the home geo-point from the
initial state's geo-point, recompute the initial state's derived fields,
then reset (current := initial). -/
def Environment.init (em : EarthModel) (initial : EnvState) : Environment :=
  let home_geo_point : HomeGeoPoint := ⟨initial.geo_point⟩
  let initial2 := updateState em initial home_geo_point
  { initial := initial2, current := initial2, home_geo_point := home_geo_point }

/-- `Environment::setPosition(position)`. -/
def Environment.setPosition (env : Environment) (position : Vector3) : Environment :=
  { env with current := { env.current with position := position } }

/-- `Environment::reset()`. -/
def Environment.reset (env : Environment) : Environment :=
  { env with current := env.initial }

/-- `Environment::update()`. -/
def Environment.update (em : EarthModel) (env : Environment) : Environment :=
  { env with current := updateState em env.current env.home_geo_point }

/-! ### Concrete sample inputs used by witnesses and counterexamples -/

/-- A constant board channel state. -/
def sampleChannels : ℕ → ℕ := fun _ => 1500

/-- A disconnected RC sample with nonzero axes and switches. -/
def rcDisconnected : RCData :=
  { roll := 1, pitch := -1, yaw := 1/2, throttle := 7/10,
    switch1 := 1, switch2 := 0, switch3 := 1, switch4 := 0,
    switch5 := 1, switch6 := 0, switch7 := 1, switch8 := 0,
    is_connected := false }

/-- A connected RC sample with roll 1/1000 and all else zero. -/
def rcRollTiny : RCData :=
  { roll := 1/1000, pitch := 0, yaw := 0, throttle := 0,
    switch1 := 0, switch2 := 0, switch3 := 0, switch4 := 0,
    switch5 := 0, switch6 := 0, switch7 := 0, switch8 := 0,
    is_connected := true }

/-- A connected RC sample with pitch 1/1000 and all else zero. -/
def rcPitchTiny : RCData :=
  { roll := 0, pitch := 1/1000, yaw := 0, throttle := 0,
    switch1 := 0, switch2 := 0, switch3 := 0, switch4 := 0,
    switch5 := 0, switch6 := 0, switch7 := 0, switch8 := 0,
    is_connected := true }

/-- A connected RC sample exercising the axis endpoints (roll 1, pitch 1,
yaw -1, throttle -1/2). -/
def rcEndpoints : RCData :=
  { roll := 1, pitch := 1, yaw := -1, throttle := -1/2,
    switch1 := 0, switch2 := 0, switch3 := 0, switch4 := 0,
    switch5 := 0, switch6 := 0, switch7 := 0, switch8 := 0,
    is_connected := true }

end

end AirLib

namespace AirLib

open Real

/-- C1: `transformToWorldFrame(v, pose, assumeUnit)` translates first and then
rotates: it equals `rotateVector(v + pose.position, pose.orientation, assumeUnit)`
for every body vector, pose and flag; and this is not the conventional
rotate-then-translate order, as the concrete evaluation at
`v = (1,0,0)`, `position = (1,0,0)`, `orientation = (0,0,0,1)` shows:
translate-then-rotate yields x-component `-2` while rotate-then-translate
yields x-component `0`. -/
theorem transformToWorldFrame_translates_then_rotates :
    (∀ (v : Vector3) (P : Pose) (b : Bool),
      transformToWorldFramePose v P b = rotateVector (v + P.position) P.orientation b)
    ∧ (transformToWorldFramePose ⟨1, 0, 0⟩ ⟨⟨1, 0, 0⟩, ⟨0, 0, 0, 1⟩⟩ true).x = -2
    ∧ (rotateVector ⟨1, 0, 0⟩ (⟨0, 0, 0, 1⟩ : Quaternion) true + (⟨1, 0, 0⟩ : Vector3)).x = 0 := by
  refine ⟨fun v P b => rfl, ?_, ?_⟩ <;>
    norm_num [transformToWorldFramePose, transformToWorldFrame, rotateVector,
      Quaternion.transformVector, Quaternion.vec, cross, smul, Vector3.add_def]


/-- C2: `getVertexControlSignal(rotor_index)` raises an error if and only if
`rotor_index ≥ 4`; for indices 0, 1, 2, 3 it returns the board's motor
control signal at the remapped QuadX index given by the permutation
0→1, 1→2, 2→3, 3→0. -/
theorem getVertexControlSignal_error_iff_and_permutation (board : ℕ → ℝ) (i : ℕ) :
    ((∃ e, getVertexControlSignal board i = Except.error e) ↔ 4 ≤ i)
    ∧ getVertexControlSignal board 0 = Except.ok (board 1)
    ∧ getVertexControlSignal board 1 = Except.ok (board 2)
    ∧ getVertexControlSignal board 2 = Except.ok (board 3)
    ∧ getVertexControlSignal board 3 = Except.ok (board 0) := by
  refine ⟨⟨?_, ?_⟩, rfl, rfl, rfl, rfl⟩
  · rintro ⟨e, he⟩
    by_contra h4
    push_neg at h4
    interval_cases i <;> simp [getVertexControlSignal] at he
  · intro h4
    obtain ⟨n, rfl⟩ : ∃ n, i = n + 4 := ⟨i - 4, by omega⟩
    exact ⟨_, rfl⟩

/-- C3: with `is_connected = false`, `setRCData` performs no input-channel
writes at all: the channel state is unchanged, whatever the axes and
switches hold. -/
theorem setRCData_disconnected_is_noop (rc : RCData) (channels : ℕ → ℕ)
    (h : rc.is_connected = false) : setRCData rc channels = channels := by
  simp [setRCData, h]

/-- Witness for C3 at a concrete disconnected RC sample and channel state. -/
theorem setRCData_disconnected_is_noop_witness :
    rcDisconnected.is_connected = false
    ∧ setRCData rcDisconnected sampleChannels = sampleChannels :=
  ⟨rfl, setRCData_disconnected_is_noop rcDisconnected sampleChannels rfl⟩

/-- C8: the home geo-point is fixed by `Environment.init` (to the initial
state's geo-point) and is preserved by `reset`, `update` and `setPosition`;
after `update` the position is untouched and every derived field of the
current state (geo_point, temperature, air_pressure, air_density, gravity)
equals the stated pure function of the current position and the home
geo-point, with the gravity vector of the form `(0, 0, g)`. -/
theorem environment_home_fixed_derived_pure (em : EarthModel) (env : Environment)
    (st : EnvState) (p : Vector3) :
    (Environment.reset env).home_geo_point = env.home_geo_point
    ∧ (Environment.update em env).home_geo_point = env.home_geo_point
    ∧ (Environment.setPosition env p).home_geo_point = env.home_geo_point
    ∧ (Environment.init em st).home_geo_point = ⟨st.geo_point⟩
    ∧ (Environment.update em env).current.position = env.current.position
    ∧ (Environment.update em env).current.geo_point
        = em.nedToGeodetic env.current.position env.home_geo_point
    ∧ (Environment.update em env).current.temperature
        = em.getStandardTemperature (em.getGeopotential
            ((em.nedToGeodetic env.current.position env.home_geo_point).altitude / 1000))
    ∧ (Environment.update em env).current.air_pressure
        = em.getStandardPressure
            (em.getGeopotential
              ((em.nedToGeodetic env.current.position env.home_geo_point).altitude / 1000))
            ((Environment.update em env).current.temperature)
    ∧ (Environment.update em env).current.air_density
        = em.getAirDensity ((Environment.update em env).current.air_pressure)
            ((Environment.update em env).current.temperature)
    ∧ (Environment.update em env).current.gravity
        = ⟨0, 0, em.getGravity ((Environment.update em env).current.geo_point.altitude)⟩ :=
  ⟨rfl, rfl, rfl, rfl, rfl, rfl, rfl, rfl, rfl, rfl⟩

/-- C9 counterexample: with `roll = 1/1000` (connected), the value written to
input channel 0 is the truncation `1500`, not the real value
`500*roll + 1500 = 1500.5` the claim states. -/
theorem setRCData_roll_fractional_counterexample :
    rcRollTiny.is_connected = true
    ∧ ((setRCData rcRollTiny sampleChannels 0 : ℕ) : ℝ) ≠ 500 * rcRollTiny.roll + 1500 := by
  constructor
  · rfl
  · have hfloor : ⌊(1 / 1000 * 500 + 1500 : ℝ)⌋ = (1500 : ℤ) := by
      norm_num [Int.floor_eq_iff]
    have h1500 : Int.toNat 1500 = 1500 := rfl
    norm_num [setRCData, rcRollTiny, setInputChannel, angleToPwm, u16OfFloat, hfloor, h1500]

/-- C9 (amended): with `is_connected = true`, `setRCData` writes to input
channel 0 the uint16 truncation `⌊500*roll + 1500⌋` (which is exactly 2000,
1500, 1000 at roll = 1, 0, -1), and to channel 2 the throttle clamped at 0
from below, mapped by truncating `throttle * 1000 + 1000`. -/
theorem setRCData_connected_roll_throttle (rc : RCData) (channels : ℕ → ℕ)
    (h : rc.is_connected = true) :
    setRCData rc channels 0 = Int.toNat ⌊500 * rc.roll + 1500⌋
    ∧ setRCData rc channels 2
        = Int.toNat ⌊(if rc.throttle < 0 then 0 else rc.throttle) * 1000 + 1000⌋ := by
  have hc : 500 * rc.roll + 1500 = rc.roll * 500 + 1500 := by ring
  constructor
  · simp [setRCData, h, setInputChannel, angleToPwm, u16OfFloat, hc]
  · simp [setRCData, h, setInputChannel, thrustToPwm, u16OfFloat]

/-- Witness for the amended C9 at the endpoint sample: roll 1 maps to 2000
and the negative throttle -1/2 is clamped to 0 and maps to 1000. -/
theorem setRCData_connected_roll_throttle_witness :
    rcEndpoints.is_connected = true
    ∧ setRCData rcEndpoints sampleChannels 0 = 2000
    ∧ setRCData rcEndpoints sampleChannels 2 = 1000 := by
  obtain ⟨h0, h2⟩ := setRCData_connected_roll_throttle rcEndpoints sampleChannels rfl
  refine ⟨rfl, ?_, ?_⟩
  · rw [h0]
    have h2000 : Int.toNat 2000 = 2000 := rfl
    norm_num [rcEndpoints, h2000]
  · rw [h2]
    have h1000 : Int.toNat 1000 = 1000 := rfl
    norm_num [rcEndpoints, h1000]

/-- C10 counterexample: with `pitch = 1/1000` (connected), the value written
to input channel 3 is the truncation `1499`, not the real value
`500*(-pitch) + 1500 = 1499.5` the claim states. -/
theorem setRCData_pitch_fractional_counterexample :
    rcPitchTiny.is_connected = true
    ∧ ((setRCData rcPitchTiny sampleChannels 3 : ℕ) : ℝ)
        ≠ 500 * (-rcPitchTiny.pitch) + 1500 := by
  constructor
  · rfl
  · have hfloor : ⌊(-(1 / 1000) * 500 + 1500 : ℝ)⌋ = (1499 : ℤ) := by
      norm_num [Int.floor_eq_iff]
    have h1499 : Int.toNat 1499 = 1499 := rfl
    norm_num [setRCData, rcPitchTiny, setInputChannel, angleToPwm, u16OfFloat, hfloor, h1499]

/-- C10 (amended): with `is_connected = true`, `setRCData` negates the pitch
axis and writes to channel 3 the truncation `⌊500*(-pitch) + 1500⌋` (exactly
1000 at pitch = +1 and 2000 at pitch = -1 — the opposite direction of the
roll mapping), writes yaw to channel 1 as `⌊500*yaw + 1500⌋`, and throttle
to channel 2. -/
theorem setRCData_connected_pitch_negated (rc : RCData) (channels : ℕ → ℕ)
    (h : rc.is_connected = true) :
    setRCData rc channels 3 = Int.toNat ⌊500 * (-rc.pitch) + 1500⌋
    ∧ setRCData rc channels 1 = Int.toNat ⌊500 * rc.yaw + 1500⌋
    ∧ setRCData rc channels 2
        = Int.toNat ⌊(if rc.throttle < 0 then 0 else rc.throttle) * 1000 + 1000⌋ := by
  have hc3 : 500 * (-rc.pitch) + 1500 = -rc.pitch * 500 + 1500 := by ring
  have hc1 : 500 * rc.yaw + 1500 = rc.yaw * 500 + 1500 := by ring
  refine ⟨?_, ?_, ?_⟩
  · simp [setRCData, h, setInputChannel, angleToPwm, u16OfFloat, hc3]
    ring_nf
  · simp [setRCData, h, setInputChannel, angleToPwm, u16OfFloat, hc1]
  · simp [setRCData, h, setInputChannel, thrustToPwm, u16OfFloat]

/-- Witness for the amended C10 at the endpoint sample: pitch +1 maps to
1000 on channel 3 (2000 - 1000 reversed relative to roll), yaw -1 maps to
1000 on channel 1. -/
theorem setRCData_connected_pitch_negated_witness :
    rcEndpoints.is_connected = true
    ∧ setRCData rcEndpoints sampleChannels 3 = 1000
    ∧ setRCData rcEndpoints sampleChannels 1 = 1000 := by
  obtain ⟨h3, h1, _⟩ := setRCData_connected_pitch_negated rcEndpoints sampleChannels rfl
  refine ⟨rfl, ?_, ?_⟩
  · rw [h3]
    have h1000 : Int.toNat 1000 = 1000 := rfl
    norm_num [rcEndpoints, h1000]
  · rw [h1]
    have h1000 : Int.toNat 1000 = 1000 := rfl
    norm_num [rcEndpoints, h1000]


/-- The result of `fmod x 360` lies strictly between -360 and 360. -/
lemma fmod360_mem (x : ℝ) : fmod x 360 ∈ Set.Ioo (-360 : ℝ) 360 := by
  unfold fmod rtrunc
  have hx : 360 * (x / 360) = x := by ring
  split_ifs with h
  · have h1 : (⌊x / 360⌋ : ℝ) ≤ x / 360 := Int.floor_le _
    have h2 : x / 360 - 1 < (⌊x / 360⌋ : ℝ) := Int.sub_one_lt_floor _
    constructor <;> nlinarith
  · have h1 : x / 360 ≤ (⌈x / 360⌉ : ℝ) := Int.le_ceil _
    have h2 : (⌈x / 360⌉ : ℝ) < x / 360 + 1 := Int.ceil_lt_add_one _
    constructor <;> nlinarith

/-- `fmod a 360 = a` whenever `a` lies in `[-180, 180]`. -/
lemma fmod360_self (a : ℝ) (h1 : -180 ≤ a) (h2 : a ≤ 180) : fmod a 360 = a := by
  unfold fmod rtrunc
  split_ifs with h
  · have hz : ⌊a / 360⌋ = 0 := Int.floor_eq_zero_iff.mpr ⟨h, by linarith⟩
    rw [hz]
    push_cast
    ring
  · have hz : ⌈a / 360⌉ = 0 := Int.ceil_eq_zero_iff.mpr ⟨by linarith, by linarith [not_le.mp h]⟩
    rw [hz]
    push_cast
    ring

/-- C4 counterexample: `normalizeAngleDegrees (-180) = -180`, and `-180` is
not in the half-open interval `(-180, 180]` the claim asserts as range. -/
theorem normalizeAngleDegrees_neg180_counterexample :
    normalizeAngleDegrees (-180) = -180
    ∧ (-180 : ℝ) ∉ Set.Ioc (-180 : ℝ) 180 := by
  constructor
  · simp only [normalizeAngleDegrees]
    rw [fmod360_self (-180) (by norm_num) (by norm_num)]
    norm_num
  · simp

/-- C4 (amended): `normalizeAngleDegrees` is idempotent and its result lies
in the closed interval `[-180, 180]` for every input (the endpoint `-180`
is attained, so the interval cannot be taken half-open); `370 ↦ 10` and
`-200 ↦ 160`. -/
theorem normalizeAngleDegrees_idempotent_and_range :
    (∀ x : ℝ, normalizeAngleDegrees x ∈ Set.Icc (-180 : ℝ) 180
      ∧ normalizeAngleDegrees (normalizeAngleDegrees x) = normalizeAngleDegrees x)
    ∧ normalizeAngleDegrees 370 = 10
    ∧ normalizeAngleDegrees (-200) = 160 := by
  have hrange : ∀ x : ℝ, normalizeAngleDegrees x ∈ Set.Icc (-180 : ℝ) 180 := by
    intro x
    obtain ⟨hlo, hhi⟩ := fmod360_mem x
    simp only [normalizeAngleDegrees]
    split_ifs with h1 h2
    · exact ⟨by linarith, by linarith⟩
    · exact ⟨by linarith, by linarith⟩
    · exact ⟨by linarith [not_lt.mp h2], by linarith [not_lt.mp h1]⟩
  refine ⟨fun x => ⟨hrange x, ?_⟩, ?_, ?_⟩
  · have hmem := hrange x
    rw [Set.mem_Icc] at hmem
    set a := normalizeAngleDegrees x with ha
    simp only [normalizeAngleDegrees]
    rw [fmod360_self a hmem.1 hmem.2]
    split_ifs with h1 h2
    · linarith [hmem.2]
    · linarith [hmem.1]
    · rfl
  · have hf : fmod 370 360 = 10 := by
      unfold fmod rtrunc
      rw [if_pos (by norm_num : (0:ℝ) ≤ 370 / 360)]
      have hfl : ⌊(370 : ℝ) / 360⌋ = 1 := by norm_num [Int.floor_eq_iff]
      rw [hfl]
      norm_num
    simp only [normalizeAngleDegrees]
    rw [hf]
    norm_num
  · have hf : fmod (-200) 360 = -200 := by
      unfold fmod rtrunc
      rw [if_neg (by norm_num : ¬ (0:ℝ) ≤ (-200) / 360)]
      have hcl : ⌈(-200 : ℝ) / 360⌉ = 0 := by
        rw [Int.ceil_eq_zero_iff]
        constructor <;> norm_num
      rw [hcl]
      norm_num
    simp only [normalizeAngleDegrees]
    rw [hf]
    norm_num


/-- `rotateVector` ignores its flag and applies `_transformVector`. -/
lemma rotateVector_def (v : Vector3) (q : Quaternion) (b : Bool) :
    rotateVector v q b = q.transformVector v := rfl

/-- `rotateVectorReverse` with the unit flag uses the conjugate. -/
lemma rotateVectorReverse_true (v : Vector3) (q : Quaternion) :
    rotateVectorReverse v q true = q.conjugate.transformVector v := rfl

/-- C6: for a unit quaternion, rotating a vector by `q` and then by its
reverse returns the vector exactly. -/
theorem rotateVector_then_reverse_is_id (v : Vector3) (q : Quaternion)
    (h : q.squaredNorm = 1) :
    rotateVectorReverse (rotateVector v q true) q true = v := by
  have h' : q.w * q.w + q.x * q.x + q.y * q.y + q.z * q.z = 1 := h
  rw [rotateVectorReverse_true, rotateVector_def]
  simp only [Quaternion.transformVector, Quaternion.conjugate, Quaternion.vec,
    cross, smul, Vector3.add_def]
  ext
  · linear_combination (4 * (q.x * q.x + q.y * q.y + q.z * q.z) * v.x
      - 4 * (q.x * v.x + q.y * v.y + q.z * v.z) * q.x) * h'
  · linear_combination (4 * (q.x * q.x + q.y * q.y + q.z * q.z) * v.y
      - 4 * (q.x * v.x + q.y * v.y + q.z * v.z) * q.y) * h'
  · linear_combination (4 * (q.x * q.x + q.y * q.y + q.z * q.z) * v.z
      - 4 * (q.x * v.x + q.y * v.y + q.z * v.z) * q.z) * h'

/-- Witness for C6 at the unit quaternion (3/5, 4/5, 0, 0) and vector (1,2,3). -/
theorem rotateVector_then_reverse_is_id_witness :
    Quaternion.squaredNorm ⟨3/5, 4/5, 0, 0⟩ = 1
    ∧ rotateVectorReverse (rotateVector ⟨1, 2, 3⟩ ⟨3/5, 4/5, 0, 0⟩ true) ⟨3/5, 4/5, 0, 0⟩ true
        = ⟨1, 2, 3⟩ :=
  ⟨by norm_num [Quaternion.squaredNorm],
   rotateVector_then_reverse_is_id ⟨1, 2, 3⟩ ⟨3/5, 4/5, 0, 0⟩
     (by norm_num [Quaternion.squaredNorm])⟩

/-- C5: for a unit quaternion the closed-form extractions `getYaw`,
`getPitch`, `getRoll` agree exactly with the corresponding components of
`toEulerianAngle` (in particular at every non-singular attitude). -/
theorem closed_form_extractions_agree_with_euler (q : Quaternion)
    (h : q.squaredNorm = 1) :
    getYaw q = (toEulerianAngle q).yaw
    ∧ getPitch q = (toEulerianAngle q).pitch
    ∧ getRoll q = (toEulerianAngle q).roll := by
  have h' : q.w * q.w + q.x * q.x + q.y * q.y + q.z * q.z = 1 := h
  refine ⟨?_, ?_, ?_⟩
  · simp only [getYaw, toEulerianAngle]
    have e1 : 2 * (q.z * q.w + q.x * q.y) = 2 * (q.x * q.y + q.w * q.z) := by ring
    have e2 : -1 + 2 * (q.w * q.w + q.x * q.x) = -2 * (q.y * q.y + q.z * q.z) + 1 := by
      linear_combination 2 * h'
    rw [e1, e2]
  · simp only [getPitch, toEulerianAngle]
    have hle : -2 * (q.x * q.z - q.w * q.y) ≤ 1 := by
      nlinarith [sq_nonneg (q.w - q.y), sq_nonneg (q.x + q.z)]
    have hge : -1 ≤ -2 * (q.x * q.z - q.w * q.y) := by
      nlinarith [sq_nonneg (q.w + q.y), sq_nonneg (q.x - q.z)]
    rw [if_neg (not_lt.mpr hle), if_neg (not_lt.mpr hge)]
    have e : 2 * (q.y * q.w - q.z * q.x) = -2 * (q.x * q.z - q.w * q.y) := by ring
    rw [e]
  · simp only [getRoll, toEulerianAngle]
    have e1 : 2 * (q.z * q.y + q.w * q.x) = 2 * (q.y * q.z + q.w * q.x) := by ring
    have e2 : 1 - 2 * (q.x * q.x + q.y * q.y) = -2 * (q.x * q.x + q.y * q.y) + 1 := by ring
    rw [e1, e2]

/-- Witness for C5 at the identity quaternion. -/
theorem closed_form_extractions_agree_with_euler_witness :
    Quaternion.squaredNorm ⟨1, 0, 0, 0⟩ = 1
    ∧ (getYaw ⟨1, 0, 0, 0⟩ = (toEulerianAngle ⟨1, 0, 0, 0⟩).yaw
       ∧ getPitch ⟨1, 0, 0, 0⟩ = (toEulerianAngle ⟨1, 0, 0, 0⟩).pitch
       ∧ getRoll ⟨1, 0, 0, 0⟩ = (toEulerianAngle ⟨1, 0, 0, 0⟩).roll) :=
  ⟨by norm_num [Quaternion.squaredNorm],
   closed_form_extractions_agree_with_euler ⟨1, 0, 0, 0⟩
     (by norm_num [Quaternion.squaredNorm])⟩


/-- Double-angle expansion matched to the half-angle terms of `toQuaternion`. -/
lemma sin_double_half (p : ℝ) : sin p = 2 * sin (p * 0.5) * cos (p * 0.5) := by
  have h := sin_two_mul (p * 0.5)
  have h2 : 2 * (p * 0.5) = p := by ring
  rw [h2] at h
  exact h

/-- Double-angle cosine matched to the half-angle terms of `toQuaternion`. -/
lemma cos_double_half (p : ℝ) : cos p = 2 * cos (p * 0.5) ^ 2 - 1 := by
  have h := cos_two_mul (p * 0.5)
  have h2 : 2 * (p * 0.5) = p := by ring
  rw [h2] at h
  exact h

/-- The `t2` expression of `toEulerianAngle` evaluated on `toQuaternion p r y`
equals `sin p`. -/
lemma toQuaternion_sinp (p r y : ℝ) :
    -2 * ((toQuaternion p r y).x * (toQuaternion p r y).z
        - (toQuaternion p r y).w * (toQuaternion p r y).y) = sin p := by
  simp only [toQuaternion]
  rw [sin_double_half p]
  have hy2 := sin_sq_add_cos_sq (y * 0.5)
  have hr2 := sin_sq_add_cos_sq (r * 0.5)
  linear_combination
    (2 * cos (p * 0.5) * sin (p * 0.5) * (sin (r * 0.5) ^ 2 + cos (r * 0.5) ^ 2)) * hy2
    + (2 * cos (p * 0.5) * sin (p * 0.5)) * hr2

/-- The `t3` expression of `toEulerianAngle` on `toQuaternion p r y` equals
`sin r * cos p`. -/
lemma toQuaternion_t3 (p r y : ℝ) :
    2 * ((toQuaternion p r y).y * (toQuaternion p r y).z
        + (toQuaternion p r y).w * (toQuaternion p r y).x) = sin r * cos p := by
  simp only [toQuaternion]
  rw [sin_double_half r, cos_double_half p]
  have hy2 := sin_sq_add_cos_sq (y * 0.5)
  have hp2 := sin_sq_add_cos_sq (p * 0.5)
  linear_combination
    (2 * sin (r * 0.5) * cos (r * 0.5) * (cos (p * 0.5) ^ 2 - sin (p * 0.5) ^ 2)) * hy2
    - (2 * sin (r * 0.5) * cos (r * 0.5)) * hp2

/-- The `t4` expression of `toEulerianAngle` on `toQuaternion p r y` equals
`cos r * cos p`. -/
lemma toQuaternion_t4 (p r y : ℝ) :
    -2 * ((toQuaternion p r y).x * (toQuaternion p r y).x
        + (toQuaternion p r y).y * (toQuaternion p r y).y) + 1 = cos r * cos p := by
  simp only [toQuaternion]
  rw [cos_double_half r, cos_double_half p]
  have hy2 := sin_sq_add_cos_sq (y * 0.5)
  have hr2 := sin_sq_add_cos_sq (r * 0.5)
  have hp2 := sin_sq_add_cos_sq (p * 0.5)
  linear_combination
    (-2 * cos (p * 0.5) ^ 2) * hr2 + (-2 * cos (r * 0.5) ^ 2) * hp2
    + (-2 * (cos (p * 0.5) ^ 2 * sin (r * 0.5) ^ 2
        + sin (p * 0.5) ^ 2 * cos (r * 0.5) ^ 2)) * hy2

/-- The `t1` expression of `toEulerianAngle` on `toQuaternion p r y` equals
`sin y * cos p`. -/
lemma toQuaternion_t1 (p r y : ℝ) :
    2 * ((toQuaternion p r y).x * (toQuaternion p r y).y
        + (toQuaternion p r y).w * (toQuaternion p r y).z) = sin y * cos p := by
  simp only [toQuaternion]
  rw [sin_double_half y, cos_double_half p]
  have hr2 := sin_sq_add_cos_sq (r * 0.5)
  have hp2 := sin_sq_add_cos_sq (p * 0.5)
  linear_combination
    (2 * sin (y * 0.5) * cos (y * 0.5) * (cos (p * 0.5) ^ 2 - sin (p * 0.5) ^ 2)) * hr2
    - (2 * sin (y * 0.5) * cos (y * 0.5)) * hp2

/-- The `t0` expression of `toEulerianAngle` on `toQuaternion p r y` equals
`cos y * cos p`. -/
lemma toQuaternion_t0 (p r y : ℝ) :
    -2 * ((toQuaternion p r y).y * (toQuaternion p r y).y
        + (toQuaternion p r y).z * (toQuaternion p r y).z) + 1 = cos y * cos p := by
  simp only [toQuaternion]
  rw [cos_double_half y, cos_double_half p]
  have hy2 := sin_sq_add_cos_sq (y * 0.5)
  have hr2 := sin_sq_add_cos_sq (r * 0.5)
  have hp2 := sin_sq_add_cos_sq (p * 0.5)
  linear_combination
    (-2 * cos (p * 0.5) ^ 2) * hy2 + (-2 * cos (y * 0.5) ^ 2) * hp2
    + (-2 * (cos (p * 0.5) ^ 2 * sin (y * 0.5) ^ 2
        + sin (p * 0.5) ^ 2 * cos (y * 0.5) ^ 2)) * hr2

/-- `atan2` recovers an angle in `(-π, π]` from its sine and cosine, both
scaled by any positive factor. -/
lemma atan2_sin_cos_scaled (θ k : ℝ) (hk : 0 < k) (hθ : θ ∈ Set.Ioc (-π) π) :
    atan2 (sin θ * k) (cos θ * k) = θ := by
  unfold atan2
  have h1 : (⟨cos θ * k, sin θ * k⟩ : ℂ) = (k : ℂ) * ⟨cos θ, sin θ⟩ := by
    rw [Complex.ext_iff]
    constructor
    · simp [Complex.mul_re]
      ring
    · simp [Complex.mul_im]
      ring
  rw [h1, Complex.arg_real_mul _ hk, Complex.mk_eq_add_mul_I,
    Complex.ofReal_cos, Complex.ofReal_sin]
  exact Complex.arg_cos_add_sin_mul_I hθ

/-- Pitch component of the Euler round trip. -/
lemma euler_roundtrip_pitch (p r y : ℝ) (h1 : -(π / 2) ≤ p) (h2 : p ≤ π / 2) :
    (toEulerianAngle (toQuaternion p r y)).pitch = p := by
  simp only [toEulerianAngle]
  rw [toQuaternion_sinp p r y]
  rw [if_neg (not_lt.mpr (sin_le_one p)), if_neg (not_lt.mpr (neg_one_le_sin p))]
  exact arcsin_sin h1 h2

/-- Roll component of the Euler round trip. -/
lemma euler_roundtrip_roll (p r y : ℝ) (hp : |p| < π / 2) (hr : r ∈ Set.Ioc (-π) π) :
    (toEulerianAngle (toQuaternion p r y)).roll = r := by
  have habs := abs_lt.mp hp
  have hcp : 0 < cos p := cos_pos_of_mem_Ioo ⟨habs.1, habs.2⟩
  simp only [toEulerianAngle]
  rw [toQuaternion_t3 p r y, toQuaternion_t4 p r y]
  exact atan2_sin_cos_scaled r (cos p) hcp hr

/-- Yaw component of the Euler round trip. -/
lemma euler_roundtrip_yaw (p r y : ℝ) (hp : |p| < π / 2) (hy : y ∈ Set.Ioc (-π) π) :
    (toEulerianAngle (toQuaternion p r y)).yaw = y := by
  have habs := abs_lt.mp hp
  have hcp : 0 < cos p := cos_pos_of_mem_Ioo ⟨habs.1, habs.2⟩
  simp only [toEulerianAngle]
  rw [toQuaternion_t1 p r y, toQuaternion_t0 p r y]
  exact atan2_sin_cos_scaled y (cos p) hcp hy

/-- C7 counterexample: the input (pitch, roll, yaw) = (0, 2π, 0) has a
non-singular pitch (|0| is below 89°), yet the round trip returns roll 0,
not the original roll 2π (which is positive). -/
theorem toQuaternion_roundtrip_counterexample :
    |(0 : ℝ)| < 89 * π / 180
    ∧ (toEulerianAngle (toQuaternion 0 (2 * π) 0)).roll = 0
    ∧ (0 : ℝ) < 2 * π := by
  refine ⟨?_, ?_, by positivity⟩
  · rw [abs_zero]
    positivity
  · have hq : toQuaternion 0 (2 * π) 0 = ⟨-1, 0, 0, 0⟩ := by
      simp only [toQuaternion]
      have e1 : 2 * π * 0.5 = π := by ring
      have e2 : (0 : ℝ) * 0.5 = 0 := by ring
      rw [e1, e2, Real.cos_pi, Real.sin_pi, Real.cos_zero, Real.sin_zero]
      norm_num
    rw [hq]
    simp only [toEulerianAngle]
    norm_num
    have harg : ((⟨1, 0⟩ : ℂ)) = 1 := by
      rw [Complex.ext_iff]
      exact ⟨by norm_num, by norm_num⟩
    unfold atan2
    rw [harg]
    exact Complex.arg_one

/-- C7 (amended): for |pitch| < π/2 and roll, yaw in the principal range
(-π, π], `toEulerianAngle (toQuaternion pitch roll yaw)` returns exactly
the original three angles; outside the principal range the angles come
back wrapped (see the counterexample), so the restriction on roll and yaw
is necessary. -/
theorem toEulerianAngle_toQuaternion_roundtrip (p r y : ℝ)
    (hp : |p| < π / 2) (hr : r ∈ Set.Ioc (-π) π) (hy : y ∈ Set.Ioc (-π) π) :
    toEulerianAngle (toQuaternion p r y) = ⟨p, r, y⟩ := by
  have habs := abs_lt.mp hp
  exact EulerAngles.ext
    (euler_roundtrip_pitch p r y (le_of_lt habs.1) (le_of_lt habs.2))
    (euler_roundtrip_roll p r y hp hr)
    (euler_roundtrip_yaw p r y hp hy)

/-- Witness for the amended C7 at (0, 0, 0). -/
theorem toEulerianAngle_toQuaternion_roundtrip_witness :
    (|(0 : ℝ)| < π / 2 ∧ (0 : ℝ) ∈ Set.Ioc (-π) π)
    ∧ toEulerianAngle (toQuaternion 0 0 0) = ⟨0, 0, 0⟩ := by
  have h1 : |(0 : ℝ)| < π / 2 := by
    rw [abs_zero]
    positivity
  have h2 : (0 : ℝ) ∈ Set.Ioc (-π) π := ⟨by linarith [pi_pos], le_of_lt pi_pos⟩
  exact ⟨⟨h1, h2⟩, toEulerianAngle_toQuaternion_roundtrip 0 0 0 h1 h2 h2⟩

end AirLib
